import Mathlib

/-!
Verification of the camera / frame-loop logic of `src/main.cpp`
(GLFW_Template).  The C++ file-scope camera globals are modelled as a
`GlobalState` record over the real numbers, the pointer callback
`mouse_callback` and the per-frame `processInput` are translated
faithfully, and the render loop of `main` is modelled as a recursion
over a list of per-iteration inputs that records the draw calls it
issues.  Shader-file reading (`Shader::readFile`) is modelled over an
explicit file system map, with the C++ exception rendered as `Except`.
-/

namespace GLFWTemplate

/-- Three-component vector over ℝ, modelling `glm::vec3`. -/
structure Vec3 where
  x : ℝ
  y : ℝ
  z : ℝ

namespace Vec3

/-- Componentwise addition (`glm::vec3` operator `+`). -/
def add (a b : Vec3) : Vec3 := ⟨a.x + b.x, a.y + b.y, a.z + b.z⟩

/-- Componentwise subtraction (`glm::vec3` operator `-`). -/
def sub (a b : Vec3) : Vec3 := ⟨a.x - b.x, a.y - b.y, a.z - b.z⟩

/-- Scalar multiplication (`float * glm::vec3`). -/
def smul (c : ℝ) (a : Vec3) : Vec3 := ⟨c * a.x, c * a.y, c * a.z⟩

/-- Dot product (`glm::dot`). -/
def dot (a b : Vec3) : ℝ := a.x * b.x + a.y * b.y + a.z * b.z

/-- Cross product (`glm::cross`). -/
def cross (a b : Vec3) : Vec3 :=
  ⟨a.y * b.z - b.y * a.z, a.z * b.x - b.z * a.x, a.x * b.y - b.x * a.y⟩

/-- Euclidean length (`glm::length`). -/
noncomputable def norm (a : Vec3) : ℝ := Real.sqrt (dot a a)

/-- Normalization (`glm::normalize`): divide by the length. -/
noncomputable def normalize (a : Vec3) : Vec3 := smul (1 / norm a) a

/-- The zero vector. -/
def zero : Vec3 := ⟨0, 0, 0⟩

theorem ext_iff (a b : Vec3) : a = b ↔ a.x = b.x ∧ a.y = b.y ∧ a.z = b.z := by
  constructor
  · intro h; subst h; exact ⟨rfl, rfl, rfl⟩
  · intro h
    cases a; cases b
    simp only [mk.injEq]
    exact ⟨h.1, h.2.1, h.2.2⟩

end Vec3

/-- Degrees to radians (`glm::radians`). -/
noncomputable def radians (deg : ℝ) : ℝ := deg * (Real.pi / 180)

/-- Model of `glm::clamp`: `clampR v lo hi = min (max v lo) hi`. -/
def clampR (v lo hi : ℝ) : ℝ := min (max v lo) hi

/--
The file-scope mutable camera / mouse state of `main.cpp`
(lines 20–27), together with the GLFW window-should-close flag that
`processInput` sets via `glfwSetWindowShouldClose` and that the render
loop of `main` polls via `glfwWindowShouldClose`.
-/
structure GlobalState where
  cameraPos : Vec3
  cameraFront : Vec3
  cameraUp : Vec3
  cameraSpeed : ℝ
  yaw : ℝ
  pitch : ℝ
  lastX : ℝ
  lastY : ℝ
  firstMouse : Bool
  sensitivity : ℝ
  shouldClose : Bool

/-- The initial values of the globals in `main.cpp` (window 800×600,
so `lastX = 400`, `lastY = 300`), with the window not yet asked to
close. -/
noncomputable def initialState : GlobalState where
  cameraPos := ⟨0, 0, 3⟩
  cameraFront := ⟨0, 0, -1⟩
  cameraUp := ⟨0, 1, 0⟩
  cameraSpeed := 3 / 100
  yaw := -90
  pitch := 0
  lastX := 400
  lastY := 300
  firstMouse := true
  sensitivity := 1 / 10
  shouldClose := false

/-- The direction vector computed inside `mouse_callback`
(main.cpp lines 184–187) from yaw and pitch, before normalization. -/
noncomputable def frontVec (yawDeg pitchDeg : ℝ) : Vec3 :=
  ⟨Real.cos (radians yawDeg) * Real.cos (radians pitchDeg),
   Real.sin (radians pitchDeg),
   Real.sin (radians yawDeg) * Real.cos (radians pitchDeg)⟩

/--
The cursor-position callback `mouse_callback` of `main.cpp` lines 167–189,
acting on the global state.  On the first sample the last-position
store is initialized to the event position (so the offsets below come
out zero); then the scaled offsets update yaw and pitch, pitch is
clamped to [-89, 89], and the camera front vector is recomputed from
yaw/pitch and normalized.
-/
noncomputable def mouse_callback (xpos ypos : ℝ) (s0 : GlobalState) : GlobalState :=
  let s := if s0.firstMouse then
             { s0 with lastX := xpos, lastY := ypos, firstMouse := false }
           else s0
  let xOffset := (xpos - s.lastX) * s.sensitivity
  let yOffset := (s.lastY - ypos) * s.sensitivity
  let newYaw := s.yaw + xOffset
  let newPitch := clampR (s.pitch + yOffset) (-89) 89
  { s with lastX := xpos, lastY := ypos,
           yaw := newYaw, pitch := newPitch,
           cameraFront := Vec3.normalize (frontVec newYaw newPitch) }

/-- The key states sampled by `processInput` via `glfwGetKey`. -/
structure Keys where
  escape : Bool
  keyW : Bool
  keyS : Bool
  keyA : Bool
  keyD : Bool

/--
The key handler `processInput` of `main.cpp` lines 192–205: Escape requests a
window close; W/S move the position along ±`cameraFront` by
`cameraSpeed`; A/D move it along ∓`normalize(cross(cameraFront,
cameraUp))` by `cameraSpeed`.
-/
noncomputable def processInput (k : Keys) (st0 : GlobalState) : GlobalState :=
  let st1 := if k.escape then { st0 with shouldClose := true } else st0
  let velocity := st1.cameraSpeed
  let st2 := if k.keyW then
               { st1 with cameraPos := Vec3.add st1.cameraPos (Vec3.smul velocity st1.cameraFront) }
             else st1
  let st3 := if k.keyS then
               { st2 with cameraPos := Vec3.sub st2.cameraPos (Vec3.smul velocity st2.cameraFront) }
             else st2
  let strafe3 := Vec3.smul velocity (Vec3.normalize (Vec3.cross st3.cameraFront st3.cameraUp))
  let st4 := if k.keyA then
               { st3 with cameraPos := Vec3.sub st3.cameraPos strafe3 }
             else st3
  let strafe4 := Vec3.smul velocity (Vec3.normalize (Vec3.cross st4.cameraFront st4.cameraUp))
  if k.keyD then
    { st4 with cameraPos := Vec3.add st4.cameraPos strafe4 }
  else st4

/-- Apply a batch of pointer-move events (as delivered by
`glfwPollEvents` through the cursor-position callback) in arrival
order. -/
noncomputable def applyMouseEvents (evts : List (ℝ × ℝ)) (st : GlobalState) : GlobalState :=
  evts.foldl (fun s e => mouse_callback e.1 e.2 s) st

/-- Observable effect of one render-loop iteration: the single
`glDrawArrays` call of `main.cpp` line 275. -/
inductive LoopEvent where
  | draw

/-- The input consumed by one iteration of the render loop: the key
states sampled by `processInput` and the pointer-move events delivered
by `glfwPollEvents` at the end of the iteration. -/
structure FrameInput where
  keys : Keys
  mouseEvents : List (ℝ × ℝ)

/--
The render loop of `main` (main.cpp lines 258–279): while the window
was not asked to close, process input, draw once, present, and poll
events (which runs the mouse callback).  Returns the list of draw
calls issued, one per completed iteration.
-/
noncomputable def runLoop (st : GlobalState) : List FrameInput → List LoopEvent
  | [] => []
  | fi :: rest =>
    if st.shouldClose then []
    else
      let st1 := processInput fi.keys st
      let st2 := applyMouseEvents fi.mouseEvents st1
      LoopEvent.draw :: runLoop st2 rest

/-- The scaled horizontal pointer deltas produced by a run of
pointer-move events: each delta is the x distance to the previous
sample, times the sensitivity, exactly as `mouse_callback` computes
`xOffset`. -/
def scaledDeltas (sens lastX : ℝ) : List ℝ → List ℝ
  | [] => []
  | x :: xs => (x - lastX) * sens :: scaledDeltas sens x xs

/-- Path constant `VERTEX_SHADER_PATH` of main.cpp line 16. -/
def vertexShaderPath : String := "res/shaders/vertex_shader.glsl"

/-- Path constant `FRAGMENT_SHADER_PATH` of main.cpp line 17. -/
def fragmentShaderPath : String := "res/shaders/fragment_shader.glsl"

/--
Model of `Shader::readFile` (main.cpp lines 103–113) over an explicit file
system: `fs path = some contents` means the file opens and reads as
`contents`, `none` means it cannot be opened.  The C++ code streams
the whole file into the result on success and throws
`std::ios_base::failure` otherwise; the thrown exception is modelled
as `Except.error` carrying the exception message.
-/
def readFile (fs : String → Option String) (filepath : String) : Except String String :=
  match fs filepath with
  | some contents => Except.ok contents
  | none => Except.error ("Failed to read shader file: " ++ filepath)

/--
The fallible prefix of `Shader::createShaderProgram` (main.cpp lines
59–61), run by the `Shader` constructor: read both shader sources,
propagating a thrown read failure out of the constructor.
-/
def shaderConstruct (fs : String → Option String) (vertexPath fragmentPath : String) :
    Except String (String × String) :=
  match readFile fs vertexPath with
  | Except.error e => Except.error e
  | Except.ok vertexCode =>
    match readFile fs fragmentPath with
    | Except.error e => Except.error e
    | Except.ok fragmentCode => Except.ok (vertexCode, fragmentCode)

/-! ### Helper lemmas -/

theorem clampR_le_hi (v lo hi : ℝ) : clampR v lo hi ≤ hi := min_le_right _ _

theorem lo_le_clampR (v lo hi : ℝ) (h : lo ≤ hi) : lo ≤ clampR v lo hi :=
  le_min (le_max_right _ _) h

theorem clampR_of_hi_lt (v lo hi : ℝ) (hlo : lo ≤ hi) (h : hi < v) : clampR v lo hi = hi := by
  unfold clampR
  rw [max_eq_left (le_of_lt (lt_of_le_of_lt hlo h))]
  exact min_eq_right (le_of_lt h)

theorem clampR_of_lt_lo (v lo hi : ℝ) (hlo : lo ≤ hi) (h : v < lo) : clampR v lo hi = lo := by
  unfold clampR
  rw [max_eq_right (le_of_lt h)]
  exact min_eq_left hlo

theorem clampR_of_mem (v lo hi : ℝ) (h1 : lo ≤ v) (h2 : v ≤ hi) : clampR v lo hi = v := by
  unfold clampR
  rw [max_eq_left h1]
  exact min_eq_left h2

/-- A non-first pointer event: unfolded form of `mouse_callback`. -/
theorem mouse_callback_eq_of_not_first (x y : ℝ) (s : GlobalState) (hf : s.firstMouse = false) :
    mouse_callback x y s =
      { s with lastX := x, lastY := y,
               yaw := s.yaw + (x - s.lastX) * s.sensitivity,
               pitch := clampR (s.pitch + (s.lastY - y) * s.sensitivity) (-89) 89,
               cameraFront :=
                 Vec3.normalize (frontVec (s.yaw + (x - s.lastX) * s.sensitivity)
                   (clampR (s.pitch + (s.lastY - y) * s.sensitivity) (-89) 89)) } := by
  simp [mouse_callback, hf]

/-- A first pointer event: the offsets vanish, so yaw is kept and
pitch is merely clamped. -/
theorem mouse_callback_eq_of_first (x y : ℝ) (s : GlobalState) (hf : s.firstMouse = true) :
    mouse_callback x y s =
      { s with lastX := x, lastY := y, firstMouse := false,
               pitch := clampR s.pitch (-89) 89,
               cameraFront := Vec3.normalize (frontVec s.yaw (clampR s.pitch (-89) 89)) } := by
  simp [mouse_callback, hf]

/-- The direction recomputed from yaw/pitch is always unit length:
its squared length is `cos² pitch · (cos² yaw + sin² yaw) + sin² pitch = 1`. -/
theorem frontVec_norm_one (yawDeg pitchDeg : ℝ) : Vec3.norm (frontVec yawDeg pitchDeg) = 1 := by
  unfold Vec3.norm frontVec Vec3.dot
  have hy := Real.sin_sq_add_cos_sq (radians yawDeg)
  have hp := Real.sin_sq_add_cos_sq (radians pitchDeg)
  have hdot : Real.cos (radians yawDeg) * Real.cos (radians pitchDeg) *
        (Real.cos (radians yawDeg) * Real.cos (radians pitchDeg)) +
      Real.sin (radians pitchDeg) * Real.sin (radians pitchDeg) +
      Real.sin (radians yawDeg) * Real.cos (radians pitchDeg) *
        (Real.sin (radians yawDeg) * Real.cos (radians pitchDeg)) = 1 := by
    nlinarith [hy, hp]
  rw [hdot]
  exact Real.sqrt_one

/-- Normalizing the recomputed direction is the identity on it. -/
theorem normalize_frontVec (yawDeg pitchDeg : ℝ) :
    Vec3.normalize (frontVec yawDeg pitchDeg) = frontVec yawDeg pitchDeg := by
  unfold Vec3.normalize
  rw [frontVec_norm_one]
  unfold Vec3.smul
  norm_num

theorem processInput_orientation (k : Keys) (st : GlobalState) :
    (processInput k st).yaw = st.yaw ∧ (processInput k st).pitch = st.pitch ∧
    (processInput k st).cameraFront = st.cameraFront ∧
    (processInput k st).cameraUp = st.cameraUp ∧
    (processInput k st).cameraSpeed = st.cameraSpeed ∧
    (processInput k st).firstMouse = st.firstMouse ∧
    (processInput k st).lastX = st.lastX ∧
    (processInput k st).lastY = st.lastY ∧
    (processInput k st).sensitivity = st.sensitivity := by
  obtain ⟨e, w, sk, ak, dk⟩ := k
  cases e <;> cases w <;> cases sk <;> cases ak <;> cases dk <;> simp [processInput]

theorem processInput_shouldClose (k : Keys) (st : GlobalState) :
    (processInput k st).shouldClose = (st.shouldClose || k.escape) := by
  obtain ⟨e, w, sk, ak, dk⟩ := k
  cases e <;> cases w <;> cases sk <;> cases ak <;> cases dk <;> simp [processInput]

theorem mouse_callback_shouldClose (x y : ℝ) (s : GlobalState) :
    (mouse_callback x y s).shouldClose = s.shouldClose := by
  cases hf : s.firstMouse
  · rw [mouse_callback_eq_of_not_first x y s hf]
  · rw [mouse_callback_eq_of_first x y s hf]

theorem applyMouseEvents_shouldClose (evts : List (ℝ × ℝ)) (s : GlobalState) :
    (applyMouseEvents evts s).shouldClose = s.shouldClose := by
  induction evts generalizing s with
  | nil => rfl
  | cons e rest ih =>
    simp only [applyMouseEvents] at ih ⊢
    rw [List.foldl_cons, ih, mouse_callback_shouldClose]

/-! ### Claim theorems -/

/-- Claim C1: after every `mouse_callback` call the pitch lies in [-89, 89],
and on a non-first event a delta that would push pitch above 89
(below -89) leaves it at exactly 89 (exactly -89). -/
theorem pitch_clamped_invariant (x y : ℝ) (s : GlobalState) :
    (-89 ≤ (mouse_callback x y s).pitch ∧ (mouse_callback x y s).pitch ≤ 89) ∧
    (s.firstMouse = false →
      (89 < s.pitch + (s.lastY - y) * s.sensitivity → (mouse_callback x y s).pitch = 89) ∧
      (s.pitch + (s.lastY - y) * s.sensitivity < -89 → (mouse_callback x y s).pitch = -89)) := by
  have hlo : (-89 : ℝ) ≤ 89 := by norm_num
  constructor
  · cases hf : s.firstMouse
    · rw [mouse_callback_eq_of_not_first x y s hf]
      exact ⟨lo_le_clampR _ _ _ hlo, clampR_le_hi _ _ _⟩
    · rw [mouse_callback_eq_of_first x y s hf]
      exact ⟨lo_le_clampR _ _ _ hlo, clampR_le_hi _ _ _⟩
  · intro hf
    rw [mouse_callback_eq_of_not_first x y s hf]
    exact ⟨fun h => clampR_of_hi_lt _ _ _ hlo h, fun h => clampR_of_lt_lo _ _ _ hlo h⟩

/-- A camera state past its first pointer sample, used to instantiate
universally quantified theorems at concrete inputs. -/
noncomputable def steadyState : GlobalState := { initialState with firstMouse := false }

/-- Witness for C1: from the steady state, the pointer event (400, -10000)
carries a pitch delta of +1030 degrees and pitch lands exactly on 89,
while the event (400, 10000) carries a delta of -970 degrees and pitch
lands exactly on -89. -/
theorem pitch_clamped_invariant_witness :
    (steadyState.firstMouse = false ∧
      89 < steadyState.pitch + (steadyState.lastY - (-10000)) * steadyState.sensitivity ∧
      steadyState.pitch + (steadyState.lastY - 10000) * steadyState.sensitivity < -89) ∧
    ((mouse_callback 400 (-10000) steadyState).pitch = 89 ∧
      (mouse_callback 400 10000 steadyState).pitch = -89) := by
  have hf : steadyState.firstMouse = false := rfl
  have hgt : 89 < steadyState.pitch + (steadyState.lastY - (-10000)) * steadyState.sensitivity := by
    norm_num [steadyState, initialState]
  have hlt : steadyState.pitch + (steadyState.lastY - 10000) * steadyState.sensitivity < -89 := by
    norm_num [steadyState, initialState]
  exact ⟨⟨hf, hgt, hlt⟩,
    ((pitch_clamped_invariant 400 (-10000) steadyState).2 hf).1 hgt,
    ((pitch_clamped_invariant 400 10000 steadyState).2 hf).2 hlt⟩

/-- Claim C2: for every yaw, and every pitch in [-89, 89] degrees, the front
vector recomputed by `mouse_callback` and then normalized has
magnitude 1. -/
theorem front_unit_length (yawDeg pitchDeg : ℝ)
    (h1 : -89 ≤ pitchDeg) (h2 : pitchDeg ≤ 89) :
    Vec3.norm (Vec3.normalize (frontVec yawDeg pitchDeg)) = 1 := by
  rw [normalize_frontVec]
  exact frontVec_norm_one yawDeg pitchDeg

/-- Witness for C2: at yaw = -90, pitch = 0 the normalized front vector
has magnitude 1. -/
theorem front_unit_length_witness :
    ((-89 : ℝ) ≤ 0 ∧ (0 : ℝ) ≤ 89) ∧
      Vec3.norm (Vec3.normalize (frontVec (-90) 0)) = 1 :=
  ⟨by norm_num, front_unit_length (-90) 0 (by norm_num) (by norm_num)⟩

/-- Claim C9: a pointer event never moves the camera position, and key
processing never changes yaw, pitch or the front vector. -/
theorem effect_separation (x y : ℝ) (k : Keys) (s : GlobalState) :
    (mouse_callback x y s).cameraPos = s.cameraPos ∧
    (processInput k s).yaw = s.yaw ∧
    (processInput k s).pitch = s.pitch ∧
    (processInput k s).cameraFront = s.cameraFront := by
  refine ⟨?_, (processInput_orientation k s).1, (processInput_orientation k s).2.1,
    (processInput_orientation k s).2.2.1⟩
  cases hf : s.firstMouse
  · rw [mouse_callback_eq_of_not_first x y s hf]
  · rw [mouse_callback_eq_of_first x y s hf]

/-- Claim C3: the first pointer event after initialization produces zero
rotation for any absolute coordinates, and the second event's delta is
(x2 - x, y - y2) scaled by the sensitivity — relative to the first
event's coordinates. -/
theorem first_event_relative (x y x2 y2 : ℝ) :
    (mouse_callback x y initialState).yaw = initialState.yaw ∧
    (mouse_callback x y initialState).pitch = initialState.pitch ∧
    (mouse_callback x2 y2 (mouse_callback x y initialState)).yaw
      = initialState.yaw + (x2 - x) * initialState.sensitivity ∧
    (-89 ≤ initialState.pitch + (y - y2) * initialState.sensitivity →
      initialState.pitch + (y - y2) * initialState.sensitivity ≤ 89 →
      (mouse_callback x2 y2 (mouse_callback x y initialState)).pitch
        = initialState.pitch + (y - y2) * initialState.sensitivity) := by
  have hcl : clampR initialState.pitch (-89) 89 = initialState.pitch :=
    clampR_of_mem _ _ _ (by norm_num [initialState]) (by norm_num [initialState])
  have e0 := mouse_callback_eq_of_first x y initialState rfl
  refine ⟨?_, ?_, ?_, ?_⟩
  · rw [e0]
  · rw [e0]; exact hcl
  · rw [e0, mouse_callback_eq_of_not_first x2 y2 _ rfl]
  · intro h1 h2
    have e1 : (mouse_callback x2 y2 (mouse_callback x y initialState)).pitch
        = clampR (clampR initialState.pitch (-89) 89 + (y - y2) * initialState.sensitivity)
            (-89) 89 := by
      rw [e0, mouse_callback_eq_of_not_first x2 y2 _ rfl]
    rw [e1, hcl]
    exact clampR_of_mem _ _ _ h1 h2

/-- Witness for C3: events (400, 300) then (410, 290) from the initial
state give a pitch delta of exactly 1 degree. -/
theorem first_event_relative_witness :
    (-89 ≤ initialState.pitch + ((300 : ℝ) - 290) * initialState.sensitivity ∧
      initialState.pitch + ((300 : ℝ) - 290) * initialState.sensitivity ≤ 89) ∧
    (mouse_callback 410 290 (mouse_callback 400 300 initialState)).pitch
      = initialState.pitch + ((300 : ℝ) - 290) * initialState.sensitivity := by
  have h1 : -89 ≤ initialState.pitch + ((300 : ℝ) - 290) * initialState.sensitivity := by
    norm_num [initialState]
  have h2 : initialState.pitch + ((300 : ℝ) - 290) * initialState.sensitivity ≤ 89 := by
    norm_num [initialState]
  exact ⟨⟨h1, h2⟩, (first_event_relative 400 300 410 290).2.2.2 h1 h2⟩

/-- Key state with only W (forward) held. -/
def forwardKeys : Keys := ⟨false, true, false, false, false⟩

/-- Key state with W and S (forward and back) held together. -/
def forwardBackKeys : Keys := ⟨false, true, true, false, false⟩

theorem processInput_forward (st : GlobalState) :
    processInput forwardKeys st
      = { st with cameraPos := Vec3.add st.cameraPos (Vec3.smul st.cameraSpeed st.cameraFront) } := by
  simp [processInput, forwardKeys]

theorem processInput_forward_back_pos (st : GlobalState) :
    (processInput forwardBackKeys st).cameraPos = st.cameraPos := by
  simp [processInput, forwardBackKeys, Vec3.add, Vec3.sub, Vec3.smul]

theorem vec3_add_smul_add (p f : Vec3) (a b : ℝ) :
    Vec3.add (Vec3.add p (Vec3.smul a f)) (Vec3.smul b f)
      = Vec3.add p (Vec3.smul (a + b) f) := by
  simp only [Vec3.add, Vec3.smul, Vec3.mk.injEq]
  refine ⟨by ring, by ring, by ring⟩

theorem processInput_forward_iterate (n : ℕ) (st : GlobalState) :
    ((fun s => processInput forwardKeys s)^[n] st).cameraPos
        = Vec3.add st.cameraPos (Vec3.smul (n * st.cameraSpeed) st.cameraFront) ∧
    ((fun s => processInput forwardKeys s)^[n] st).cameraFront = st.cameraFront ∧
    ((fun s => processInput forwardKeys s)^[n] st).cameraSpeed = st.cameraSpeed := by
  induction n with
  | zero =>
    refine ⟨?_, rfl, rfl⟩
    show st.cameraPos = _
    obtain ⟨px, py, pz⟩ := st.cameraPos
    simp [Vec3.add, Vec3.smul]
  | succ n ih =>
    obtain ⟨hp, hf, hs⟩ := ih
    rw [Function.iterate_succ_apply', processInput_forward]
    refine ⟨?_, hf, hs⟩
    show Vec3.add _ (Vec3.smul _ _) = _
    rw [hp, hf, hs, vec3_add_smul_add]
    push_cast
    ring_nf

/-- Claim C4: holding only the forward key for N ticks with the front vector
unchanged translates the position by exactly N·speed·front, and a
single tick holding forward and back together yields zero net
displacement. -/
theorem forward_ticks_displacement (n : ℕ) (st : GlobalState) :
    ((fun s => processInput forwardKeys s)^[n] st).cameraPos
      = Vec3.add st.cameraPos (Vec3.smul (n * st.cameraSpeed) st.cameraFront) ∧
    (processInput forwardBackKeys st).cameraPos = st.cameraPos :=
  ⟨(processInput_forward_iterate n st).1, processInput_forward_back_pos st⟩

theorem cos_radians_pos (p : ℝ) (h1 : -89 ≤ p) (h2 : p ≤ 89) :
    0 < Real.cos (radians p) := by
  refine Real.cos_pos_of_mem_Ioo ⟨?_, ?_⟩
  · show -(Real.pi / 2) < radians p
    unfold radians
    nlinarith [Real.pi_pos]
  · show radians p < Real.pi / 2
    unfold radians
    nlinarith [Real.pi_pos]

theorem cross_frontVec_up_ne_zero (yawDeg pitchDeg : ℝ)
    (h1 : -89 ≤ pitchDeg) (h2 : pitchDeg ≤ 89) :
    Vec3.cross (frontVec yawDeg pitchDeg) initialState.cameraUp ≠ Vec3.zero := by
  intro h
  have hc := cos_radians_pos pitchDeg h1 h2
  have hx := congrArg Vec3.x h
  have hz := congrArg Vec3.z h
  simp [Vec3.cross, frontVec, Vec3.zero, initialState] at hx hz
  have hcy : Real.cos (radians yawDeg) = 0 := by
    rcases hz with h0 | h0
    · exact h0
    · exact absurd h0 (ne_of_gt hc)
  have hsy : Real.sin (radians yawDeg) = 0 := by
    rcases hx with h0 | h0
    · exact h0
    · exact absurd h0 (ne_of_gt hc)
  have hpy := Real.sin_sq_add_cos_sq (radians yawDeg)
  rw [hsy, hcy] at hpy
  norm_num at hpy

theorem strafe_dot_front (f : Vec3) :
    Vec3.dot (Vec3.normalize (Vec3.cross f ⟨0, 1, 0⟩)) f = 0 := by
  simp only [Vec3.normalize, Vec3.smul, Vec3.cross, Vec3.dot]
  ring

/-- Claim C5: for front vectors derived from a pitch in [-89, 89] and the
fixed world-up (0,1,0), the strafe direction normalize(cross(front,
up)) is well defined (the cross product is nonzero) and orthogonal to
the front vector. -/
theorem strafe_well_defined (yawDeg pitchDeg : ℝ)
    (h1 : -89 ≤ pitchDeg) (h2 : pitchDeg ≤ 89) :
    Vec3.cross (frontVec yawDeg pitchDeg) initialState.cameraUp ≠ Vec3.zero ∧
    Vec3.dot (Vec3.normalize (Vec3.cross (frontVec yawDeg pitchDeg) initialState.cameraUp))
      (frontVec yawDeg pitchDeg) = 0 := by
  refine ⟨cross_frontVec_up_ne_zero yawDeg pitchDeg h1 h2, ?_⟩
  have hup : initialState.cameraUp = (⟨0, 1, 0⟩ : Vec3) := rfl
  rw [hup]
  exact strafe_dot_front _

/-- Witness for C5: at yaw = -90, pitch = 0 the cross product is nonzero
and the normalized strafe vector is orthogonal to the front vector. -/
theorem strafe_well_defined_witness :
    ((-89 : ℝ) ≤ 0 ∧ (0 : ℝ) ≤ 89) ∧
    (Vec3.cross (frontVec (-90) 0) initialState.cameraUp ≠ Vec3.zero ∧
     Vec3.dot (Vec3.normalize (Vec3.cross (frontVec (-90) 0) initialState.cameraUp))
       (frontVec (-90) 0) = 0) :=
  ⟨by norm_num, strafe_well_defined (-90) 0 (by norm_num) (by norm_num)⟩

theorem frontVec_initial : frontVec (-90) 0 = ⟨0, 0, -1⟩ := by
  unfold frontVec
  have h90 : radians (-90) = -(Real.pi / 2) := by unfold radians; ring
  have h0 : radians 0 = 0 := by unfold radians; ring
  rw [h90, h0]
  simp

theorem frontVec_neg80 :
    frontVec (-80) 0 = ⟨Real.sin (radians 10), 0, -Real.cos (radians 10)⟩ := by
  unfold frontVec
  have h0 : radians 0 = 0 := by unfold radians; ring
  have h80 : radians (-80) = -(Real.pi / 2 - radians 10) := by unfold radians; ring
  rw [h0, h80, Real.cos_neg, Real.sin_neg, Real.cos_pi_div_two_sub, Real.sin_pi_div_two_sub]
  simp

/-- Claim C6: from the initial pose (yaw -90, pitch 0) the front direction
is (0, 0, -1); after a pointer delta worth +10 degrees of yaw (100
pixels at sensitivity 0.1, zero pitch delta) the recomputed normalized
front is (sin 10°, 0, -cos 10°) — exact in the real-valued model, so
each component is within 1e-4 of the target. -/
theorem yaw_ten_degrees_scenario (x y : ℝ) :
    frontVec initialState.yaw initialState.pitch = initialState.cameraFront ∧
    |(mouse_callback (x + 100) y (mouse_callback x y initialState)).cameraFront.x
        - Real.sin (radians 10)| ≤ 1 / 10000 ∧
    |(mouse_callback (x + 100) y (mouse_callback x y initialState)).cameraFront.y| ≤ 1 / 10000 ∧
    |(mouse_callback (x + 100) y (mouse_callback x y initialState)).cameraFront.z
        + Real.cos (radians 10)| ≤ 1 / 10000 := by
  have e0 := mouse_callback_eq_of_first x y initialState rfl
  have hy2 : initialState.yaw + (x + 100 - x) * initialState.sensitivity = -80 := by
    norm_num [initialState]
  have hp2 : clampR (clampR initialState.pitch (-89) 89 + (y - y) * initialState.sensitivity)
      (-89) 89 = 0 := by
    norm_num [initialState, clampR]
  have hfront : (mouse_callback (x + 100) y (mouse_callback x y initialState)).cameraFront
      = ⟨Real.sin (radians 10), 0, -Real.cos (radians 10)⟩ := by
    rw [e0, mouse_callback_eq_of_not_first (x + 100) y _ rfl]
    show Vec3.normalize (frontVec (initialState.yaw + (x + 100 - x) * initialState.sensitivity)
        (clampR (clampR initialState.pitch (-89) 89 + (y - y) * initialState.sensitivity)
          (-89) 89)) = _
    rw [hy2, hp2, normalize_frontVec, frontVec_neg80]
  refine ⟨?_, ?_, ?_, ?_⟩
  · show frontVec (-90) 0 = (⟨0, 0, -1⟩ : Vec3)
    exact frontVec_initial
  · rw [hfront]
    norm_num
  · rw [hfront]
    norm_num
  · rw [hfront]
    norm_num

theorem runLoop_closed (st : GlobalState) (inputs : List FrameInput)
    (h : st.shouldClose = true) : runLoop st inputs = [] := by
  cases inputs with
  | nil => rfl
  | cons fi rest => simp [runLoop, h]

theorem runLoop_length_le (inputs : List FrameInput) :
    ∀ (i : ℕ) (st : GlobalState) (fi : FrameInput),
      inputs[i]? = some fi → fi.keys.escape = true →
      (runLoop st inputs).length ≤ i + 1 := by
  induction inputs with
  | nil =>
    intro i st fi hget _
    simp at hget
  | cons fj rest ih =>
    intro i st fi hget hesc
    by_cases hc : st.shouldClose = true
    · rw [runLoop_closed _ _ hc]
      simp
    · have hcf : st.shouldClose = false := by
        simpa using hc
      cases i with
      | zero =>
        have hfj : fj = fi := by simpa using hget
        subst hfj
        have h2 : (applyMouseEvents fj.mouseEvents (processInput fj.keys st)).shouldClose
            = true := by
          rw [applyMouseEvents_shouldClose, processInput_shouldClose, hesc, Bool.or_true]
        simp only [runLoop, hcf]
        rw [runLoop_closed _ rest h2]
        simp
      | succ j =>
        have hget2 : rest[j]? = some fi := by simpa using hget
        simp only [runLoop, hcf, if_false, Bool.false_eq_true, List.length_cons]
        have hrec := ih j (applyMouseEvents fj.mouseEvents (processInput fj.keys st)) fi
          hget2 hesc
        omega

/-- Claim C7: if the i-th loop iteration samples Escape, the close flag is
set when that iteration's input processing finishes (so the next
while-check exits), and no draw call is issued in any later
iteration: the loop emits at most i+1 draws in total. -/
theorem escape_stops_drawing (st : GlobalState) (inputs : List FrameInput) (i : ℕ)
    (fi : FrameInput) (hget : inputs[i]? = some fi) (hesc : fi.keys.escape = true) :
    (processInput fi.keys st).shouldClose = true ∧
    (runLoop st inputs).length ≤ i + 1 := by
  constructor
  · rw [processInput_shouldClose, hesc, Bool.or_true]
  · exact runLoop_length_le inputs i st fi hget hesc

/-- A frame whose sampled key state is Escape only, with no pointer
events. -/
def escFrame : FrameInput := ⟨⟨true, false, false, false, false⟩, []⟩

/-- Witness for C7: a single-iteration run that samples Escape closes at
once and issues at most one draw. -/
theorem escape_stops_drawing_witness :
    ([escFrame][0]? = some escFrame ∧ escFrame.keys.escape = true) ∧
    ((processInput escFrame.keys initialState).shouldClose = true ∧
      (runLoop initialState [escFrame]).length ≤ 0 + 1) := by
  have hget : [escFrame][0]? = some escFrame := rfl
  have hesc : escFrame.keys.escape = true := rfl
  exact ⟨⟨hget, hesc⟩, escape_stops_drawing initialState [escFrame] 0 escFrame hget hesc⟩

/-- Claim C8: a shader source file that cannot be opened makes `readFile`
throw the I/O failure (so `Shader` construction fails, whether the
vertex or the fragment source is the missing one), and a file that
opens is returned in full. -/
theorem readFile_fatal_or_full (fs gs : String → Option String) (p q c v : String)
    (hp : fs p = none) (hq : fs q = some c)
    (hv : fs vertexShaderPath = none)
    (hgv : gs vertexShaderPath = some v) (hgf : gs fragmentShaderPath = none) :
    readFile fs p = Except.error ("Failed to read shader file: " ++ p) ∧
    readFile fs q = Except.ok c ∧
    shaderConstruct fs vertexShaderPath fragmentShaderPath
      = Except.error ("Failed to read shader file: " ++ vertexShaderPath) ∧
    shaderConstruct gs vertexShaderPath fragmentShaderPath
      = Except.error ("Failed to read shader file: " ++ fragmentShaderPath) := by
  refine ⟨?_, ?_, ?_, ?_⟩
  · simp [readFile, hp]
  · simp [readFile, hq]
  · simp [shaderConstruct, readFile, hv]
  · simp [shaderConstruct, readFile, hgv, hgf]

/-- A file system holding only a readable file "ok.glsl", used to
instantiate the read-failure theorem. -/
def missingShaderFS : String → Option String :=
  fun s => if s = "ok.glsl" then some "shader source" else none

/-- A file system holding only the vertex shader, so the fragment
shader read fails. -/
def missingFragmentFS : String → Option String :=
  fun s => if s = vertexShaderPath then some "vertex source" else none

/-- Witness for C8: with the vertex source absent the constructor throws,
with only the fragment source absent it throws too, and "ok.glsl" is
read back in full. -/
theorem readFile_fatal_or_full_witness :
    (missingShaderFS "res/shaders/x.glsl" = none ∧
      missingShaderFS "ok.glsl" = some "shader source" ∧
      missingShaderFS vertexShaderPath = none ∧
      missingFragmentFS vertexShaderPath = some "vertex source" ∧
      missingFragmentFS fragmentShaderPath = none) ∧
    (readFile missingShaderFS "res/shaders/x.glsl"
        = Except.error ("Failed to read shader file: " ++ "res/shaders/x.glsl") ∧
      readFile missingShaderFS "ok.glsl" = Except.ok "shader source" ∧
      shaderConstruct missingShaderFS vertexShaderPath fragmentShaderPath
        = Except.error ("Failed to read shader file: " ++ vertexShaderPath) ∧
      shaderConstruct missingFragmentFS vertexShaderPath fragmentShaderPath
        = Except.error ("Failed to read shader file: " ++ fragmentShaderPath)) := by
  have hp : missingShaderFS "res/shaders/x.glsl" = none := by
    simp [missingShaderFS]
  have hq : missingShaderFS "ok.glsl" = some "shader source" := by
    simp [missingShaderFS]
  have hv : missingShaderFS vertexShaderPath = none := by
    simp [missingShaderFS, vertexShaderPath]
  have hgv : missingFragmentFS vertexShaderPath = some "vertex source" := by
    simp [missingFragmentFS]
  have hgf : missingFragmentFS fragmentShaderPath = none := by
    simp [missingFragmentFS, vertexShaderPath, fragmentShaderPath]
  exact ⟨⟨hp, hq, hv, hgv, hgf⟩,
    readFile_fatal_or_full missingShaderFS missingFragmentFS "res/shaders/x.glsl" "ok.glsl"
      "shader source" "vertex source" hp hq hv hgv hgf⟩

theorem mouse_callback_yaw (x y : ℝ) (s : GlobalState) (hf : s.firstMouse = false) :
    (mouse_callback x y s).yaw = s.yaw + (x - s.lastX) * s.sensitivity := by
  rw [mouse_callback_eq_of_not_first x y s hf]

theorem mouse_callback_lastX (x y : ℝ) (s : GlobalState) (hf : s.firstMouse = false) :
    (mouse_callback x y s).lastX = x := by
  rw [mouse_callback_eq_of_not_first x y s hf]

theorem mouse_callback_sensitivity (x y : ℝ) (s : GlobalState) (hf : s.firstMouse = false) :
    (mouse_callback x y s).sensitivity = s.sensitivity := by
  rw [mouse_callback_eq_of_not_first x y s hf]

theorem mouse_callback_firstMouse (x y : ℝ) (s : GlobalState) (hf : s.firstMouse = false) :
    (mouse_callback x y s).firstMouse = false := by
  rw [mouse_callback_eq_of_not_first x y s hf]
  exact hf

theorem applyMouseEvents_yaw (evts : List (ℝ × ℝ)) :
    ∀ s : GlobalState, s.firstMouse = false →
      (applyMouseEvents evts s).yaw
        = s.yaw + (scaledDeltas s.sensitivity s.lastX (evts.map Prod.fst)).sum := by
  induction evts with
  | nil =>
    intro s _
    simp [applyMouseEvents, scaledDeltas]
  | cons e rest ih =>
    intro s hf
    simp only [applyMouseEvents, List.foldl_cons] at ih ⊢
    rw [ih (mouse_callback e.1 e.2 s) (mouse_callback_firstMouse e.1 e.2 s hf),
        mouse_callback_yaw e.1 e.2 s hf, mouse_callback_sensitivity e.1 e.2 s hf,
        mouse_callback_lastX e.1 e.2 s hf, List.map_cons, scaledDeltas, List.sum_cons]
    ring

/-- Claim C10: yaw is never clamped or wrapped — after any run of pointer
events past the first sample, yaw equals the initial yaw plus the sum
of all scaled horizontal deltas; and with positive sensitivity there
are all-positive-delta runs pushing yaw past any bound. -/
theorem yaw_never_clamped (evts : List (ℝ × ℝ)) (s : GlobalState)
    (hf : s.firstMouse = false) :
    (applyMouseEvents evts s).yaw
      = s.yaw + (scaledDeltas s.sensitivity s.lastX (evts.map Prod.fst)).sum ∧
    (0 < s.sensitivity → ∀ M : ℝ, ∃ evts2 : List (ℝ × ℝ),
      (∀ d ∈ scaledDeltas s.sensitivity s.lastX (evts2.map Prod.fst), 0 < d) ∧
      M < (applyMouseEvents evts2 s).yaw) := by
  refine ⟨applyMouseEvents_yaw evts s hf, fun hs M => ?_⟩
  have hsne : s.sensitivity ≠ 0 := ne_of_gt hs
  set t := (max (M - s.yaw) 0 + 1) / s.sensitivity with ht
  have htmul : t * s.sensitivity = max (M - s.yaw) 0 + 1 := div_mul_cancel₀ _ hsne
  have hmaxpos : 0 < max (M - s.yaw) 0 + 1 := by
    have := le_max_right (M - s.yaw) (0 : ℝ)
    linarith
  refine ⟨[(s.lastX + t, 0)], ?_, ?_⟩
  · intro d hd
    simp only [List.map_cons, List.map_nil, scaledDeltas, List.mem_singleton] at hd
    rw [hd]
    have harg : s.lastX + t - s.lastX = t := by ring
    rw [harg, htmul]
    exact hmaxpos
  · rw [applyMouseEvents_yaw [(s.lastX + t, 0)] s hf]
    simp only [List.map_cons, List.map_nil, scaledDeltas, List.sum_cons, List.sum_nil]
    have harg : s.lastX + t - s.lastX = t := by ring
    rw [harg, htmul]
    have := le_max_left (M - s.yaw) (0 : ℝ)
    linarith

/-- Witness for C10: one event 100 pixels to the right of the steady
state's last sample adds exactly the telescoped scaled delta to yaw,
and with the positive sensitivity 0.1 some all-positive-delta run
pushes yaw beyond 1000. -/
theorem yaw_never_clamped_witness :
    (steadyState.firstMouse = false ∧ 0 < steadyState.sensitivity) ∧
    ((applyMouseEvents [((500 : ℝ), (300 : ℝ))] steadyState).yaw
      = steadyState.yaw
        + (scaledDeltas steadyState.sensitivity steadyState.lastX
            ([((500 : ℝ), (300 : ℝ))].map Prod.fst)).sum ∧
      ∃ evts2 : List (ℝ × ℝ),
        (∀ d ∈ scaledDeltas steadyState.sensitivity steadyState.lastX
            (evts2.map Prod.fst), 0 < d) ∧
        (1000 : ℝ) < (applyMouseEvents evts2 steadyState).yaw) := by
  have hf : steadyState.firstMouse = false := rfl
  have hs : 0 < steadyState.sensitivity := by
    norm_num [steadyState, initialState]
  exact ⟨⟨hf, hs⟩, (yaw_never_clamped [((500 : ℝ), (300 : ℝ))] steadyState hf).1,
    (yaw_never_clamped [] steadyState hf).2 hs 1000⟩

end GLFWTemplate
